import Mathlib

/-!
Verification of the Axel provider-abstraction and streaming-relay layer.

Definitions are a shallow embedding of:
  - the dashboard chat state machine of
    src/axel-web/src/app/dashboard/page.tsx (getLanguage, sendMessage,
    stopStreaming and the surrounding React state);
  - the VertexMistralClient / FastAPI sketch embedded in the backend design
    note (src/unnamed/part_000);
  - the ProviderRegistry, RequestRouter session handling, StreamRelay and
    request-validation components, whose backend implementation files are not
    part of the provided sources; those are modelled from the specification
    (spec.md sections 4.2, 4.3, 4.4) and are marked as such in their doc
    comments.
-/

namespace Axel

/-- A chat message as used end to end: a role ("system", "user" or
"assistant") and a text content (spec section 3, page.tsx ChatMessage). -/
structure ChatMessage where
  role : String
  content : String
deriving DecidableEq, Repr

/-- Token usage for one completed stream (spec section 3, and the
lastUsage record of page.tsx line 82). Fields are naturals, mirroring
non-negative integers. -/
structure StreamUsage where
  prompt_tokens : Nat
  completion_tokens : Nat
  total_tokens : Nat
deriving DecidableEq, Repr

/-! ### getLanguage — page.tsx lines 45-55 -/

/-- The extension-to-editor-language table of getLanguage
(page.tsx lines 47-53), in source order. -/
def languageMap : List (String × String) :=
  [("ts", "typescript"), ("tsx", "typescript"), ("js", "javascript"),
   ("jsx", "javascript"), ("py", "python"), ("rs", "rust"), ("go", "go"),
   ("java", "java"), ("cpp", "cpp"), ("c", "c"), ("cs", "csharp"),
   ("rb", "ruby"), ("php", "php"), ("html", "html"), ("css", "css"),
   ("scss", "scss"), ("json", "json"), ("yaml", "yaml"), ("yml", "yaml"),
   ("md", "markdown"), ("sh", "shell"), ("toml", "ini"), ("xml", "xml"),
   ("sql", "sql")]

/-- JavaScript `path.split(".")` for the single-character separator ".",
on the character list: splitting the empty string yields [""], and a
trailing "." yields a final empty segment, exactly as in JavaScript. -/
def splitOnDot : List Char → List (List Char)
  | [] => [[]]
  | c :: cs =>
      let rest := splitOnDot cs
      if c = Char.ofNat 46 then [] :: rest
      else
        match rest with
        | [] => [[c]]
        | seg :: segs => (c :: seg) :: segs

/-- The lowercased last "."-separated segment of a path:
`path.split(".").pop()?.toLowerCase() || ""` (JavaScript split on a
non-empty separator never yields an empty array, so pop is never undefined
and the `|| ""` fallback only re-maps the empty string to itself). -/
def lastSegmentLower (path : String) : String :=
  String.mk (((splitOnDot path.data).getLastD []).map Char.toLower)

/-- getLanguage (page.tsx lines 45-55): the lowercased last "."-separated
segment is looked up in the table, defaulting to "plaintext". -/
def getLanguage (path : String) : String :=
  let ext := lastSegmentLower path
  (languageMap.lookup ext).getD "plaintext"

/-- JavaScript `String.prototype.trim`: whitespace stripped from both
ends, on the character list. -/
def trimString (s : String) : String :=
  String.mk (((s.data.dropWhile Char.isWhitespace).reverse.dropWhile
    Char.isWhitespace).reverse)

/-! ### Dashboard chat state machine — page.tsx sendMessage (lines 190-240) -/

/-- The dashboard React state touched by sendMessage / stopStreaming
(page.tsx lines 59-84). -/
structure DashState where
  messages : List ChatMessage
  streamingContent : String
  input : String
  sessionId : Option String
  lastUsage : Option StreamUsage
  loading : Bool
  selectedRepo : Option String
  selectedFile : String
deriving DecidableEq, Repr

/-- The outcome of one `api.chatStream` call as observed by sendMessage:
the promise resolves after the terminal event (carrying the chunk list, the
final usage record if the server pushed one, and the session id), rejects
with an AbortError when stopStreaming aborted the controller (page.tsx
lines 238-240), or rejects with any other error. -/
inductive StreamOutcome where
  | success (chunks : List String) (usage : Option StreamUsage) (session_id : String)
  | aborted (chunks : List String)
  | failed (chunks : List String) (message : String)
deriving DecidableEq, Repr

/-- The chunk accumulator of sendMessage (page.tsx lines 207, 212-215):
`accumulated += chunk` over the received fragments, starting from "". -/
def concatChunks (chunks : List String) : String :=
  chunks.foldl (fun acc c => acc ++ c) ""

/-- The system context message content built by sendMessage
(page.tsx lines 193-196). -/
def contextContent (repo : String) (selectedFile : String) : String :=
  "You are an expert coding assistant helping with the GitHub repository \""
    ++ repo ++ "\"."
    ++ (if selectedFile = "" then ""
        else " The user is currently viewing the file: " ++ selectedFile ++ ".")
    ++ " Be concise and helpful."

/-- The message list handed to `api.chatStream` (page.tsx line 209):
the context message followed by the optimistic history
`[...messages, userMsg]`. -/
def requestMessages (s : DashState) (repo : String) : List ChatMessage :=
  { role := "system", content := contextContent repo s.selectedFile }
    :: (s.messages ++ [{ role := "user", content := s.input }])

/-- sendMessage (page.tsx lines 190-236) as a state transformer, indexed by
the stream outcome. The guard mirrors `!input.trim() || !selectedRepo`.
On success the assistant turn is appended as the concatenation of all
chunks and the session id is taken from the result; on an AbortError the
optimistic history (with the user message) is kept and nothing else is
appended; on any other error `setMessages(messages)` restores the pre-send
message list from the render-time closure. The finally block clears
streamingContent and loading in every branch, and `setInput("")` ran before
the await. -/
def sendMessage (s : DashState) (outcome : StreamOutcome) : DashState :=
  if trimString s.input = "" ∨ s.selectedRepo = none then s
  else
    let userMsg : ChatMessage := { role := "user", content := s.input }
    let history := s.messages ++ [userMsg]
    match outcome with
    | StreamOutcome.success chunks usage sid =>
        { s with
            messages := history ++ [{ role := "assistant", content := concatChunks chunks }]
            streamingContent := ""
            input := ""
            sessionId := some sid
            lastUsage := match usage with | some u => some u | none => s.lastUsage
            loading := false }
    | StreamOutcome.aborted _ =>
        { s with
            messages := history
            streamingContent := ""
            input := ""
            loading := false }
    | StreamOutcome.failed _ _ =>
        { s with
            messages := s.messages
            streamingContent := ""
            input := ""
            loading := false }

/-- A concrete initial dashboard state: a repository is selected, the
compose box holds "hi", and no turn has happened yet. -/
def dashInit : DashState :=
  { messages := []
    streamingContent := ""
    input := "hi"
    sessionId := none
    lastUsage := none
    loading := false
    selectedRepo := some "octo/demo"
    selectedFile := "" }

/-! ### VertexMistralClient — design note src/unnamed/part_000, lines 75-98 -/

/-- The state of a VertexMistralClient instance (part_000 lines 75-81):
region and project_id are read from the environment in the constructor, and
the targeted model is fixed there as the f-string of model_name and
model_version. No method ever reassigns these attributes. -/
structure VertexMistralClient where
  region : String
  project_id : String
  model : String
deriving DecidableEq, Repr

/-- The constructor of VertexMistralClient (part_000 lines 76-81):
stores the environment configuration and binds
`self.model = model_name + "-" + model_version`. -/
def VertexMistralClient.construct (region project_id model_name model_version : String) :
    VertexMistralClient :=
  { region := region, project_id := project_id, model := model_name ++ "-" ++ model_version }

/-- A chat completion request as issued to the Mistral GCP SDK
(part_000 lines 83-89): `client.chat.complete(model=self.model, messages=...)`. -/
structure ChatRequest where
  model : String
  messages : List ChatMessage
deriving DecidableEq, Repr

/-- A fill-in-the-middle request as issued to the Mistral GCP SDK
(part_000 lines 91-98):
`client.fim.complete(model=self.model, prompt=..., suffix=...)`. -/
structure FimRequest where
  model : String
  prompt : String
  suffix : String
deriving DecidableEq, Repr

/-- VertexMistralClient.chat (part_000 lines 83-89): builds the upstream
request from the bound model and the given messages. -/
def VertexMistralClient.chatRequest (c : VertexMistralClient)
    (messages : List ChatMessage) : ChatRequest :=
  { model := c.model, messages := messages }

/-- VertexMistralClient.fim (part_000 lines 91-98): builds the upstream
request from the bound model, prompt and suffix; the sketch performs no
input validation. -/
def VertexMistralClient.fimRequest (c : VertexMistralClient)
    (prompt suffix : String) : FimRequest :=
  { model := c.model, prompt := prompt, suffix := suffix }

/-- One operation invoked on a client instance over its lifetime. -/
inductive ClientOp where
  | chatOp (messages : List ChatMessage)
  | fimOp (prompt suffix : String)
deriving DecidableEq, Repr

/-- A request issued upstream by one client operation. -/
inductive IssuedRequest where
  | chatReq (r : ChatRequest)
  | fimReq (r : FimRequest)
deriving DecidableEq, Repr

/-- The model an issued request targets. -/
def IssuedRequest.model : IssuedRequest → String
  | IssuedRequest.chatReq r => r.model
  | IssuedRequest.fimReq r => r.model

/-- Runs one operation on a client: the request is issued and the client
state is returned as the methods leave it — part_000's chat and fim read
self.model and self.client but assign nothing, so the state is unchanged. -/
def VertexMistralClient.runOp (c : VertexMistralClient) :
    ClientOp → IssuedRequest × VertexMistralClient
  | ClientOp.chatOp msgs => (IssuedRequest.chatReq (c.chatRequest msgs), c)
  | ClientOp.fimOp p sfx => (IssuedRequest.fimReq (c.fimRequest p sfx), c)

/-- Runs a whole lifetime of operations on a client, collecting the issued
requests and threading the client state. -/
def VertexMistralClient.runOps (c : VertexMistralClient) :
    List ClientOp → List IssuedRequest × VertexMistralClient
  | [] => ([], c)
  | op :: ops =>
      let step := c.runOp op
      let rest := step.2.runOps ops
      (step.1 :: rest.1, rest.2)

/-! ### Error taxonomy — spec section 7 -/

/-- The error taxonomy of spec section 7. -/
inductive ErrorKind where
  | invalidRequest
  | unknownProvider
  | upstreamTimeout
  | upstreamError
  | rateLimited
deriving DecidableEq, Repr

/-! ### StreamRelay — modelled from the spec (section 4.4) -/

/-- One provider-native incremental chunk: either textual content or the
final usage metadata. -/
inductive NativeChunk where
  | text (t : String)
  | usage (u : StreamUsage)
deriving DecidableEq, Repr

/-- The transport-agnostic stream event vocabulary (spec section 3). -/
inductive StreamEvent where
  | contentDelta (t : String)
  | usageFinal (u : StreamUsage)
  | error (kind : ErrorKind) (message : String)
  | done
deriving DecidableEq, Repr

/-- How the upstream read loop ends: the provider finished normally, the
read failed, or the cancellation signal fired after the listed chunks. -/
inductive UpstreamEnd where
  | ok
  | failed (message : String)
  | cancelled
deriving DecidableEq, Repr

/-- Modelled from the spec: one step of the StreamRelay read loop (spec
section 4.4; the backend relay implementation is not among the provided
sources). A chunk carrying textual content yields a ContentDelta for
exactly that text (an empty chunk carries none, matching the
empty-never rule of section 3); final usage metadata is buffered. -/
def relayStep (c : NativeChunk) (buf : Option StreamUsage) :
    List StreamEvent × Option StreamUsage :=
  match c with
  | NativeChunk.text t => (if t = "" then [] else [StreamEvent.contentDelta t], buf)
  | NativeChunk.usage u => ([], some u)

/-- Modelled from the spec: the StreamRelay read loop over the chunks the
upstream produced, threading the buffered usage. -/
def relayRun : List NativeChunk → Option StreamUsage → List StreamEvent × Option StreamUsage
  | [], buf => ([], buf)
  | c :: cs, buf =>
      let step := relayStep c buf
      let rest := relayRun cs step.2
      (step.1 ++ rest.1, rest.2)

/-- Modelled from the spec: the full StreamRelay output for one stream
(spec section 4.4). On normal end the buffered UsageFinal is emitted
immediately before Done; on an upstream read failure an Error ends the
stream; when the cancellation signal fires the relay stops and emits no
further events. -/
def relay (chunks : List NativeChunk) (ending : UpstreamEnd) : List StreamEvent :=
  let run := relayRun chunks none
  match ending with
  | UpstreamEnd.ok =>
      run.1 ++ (match run.2 with
                | some u => [StreamEvent.usageFinal u]
                | none => []) ++ [StreamEvent.done]
  | UpstreamEnd.failed msg => run.1 ++ [StreamEvent.error ErrorKind.upstreamError msg]
  | UpstreamEnd.cancelled => run.1

/-- The texts carried by the ContentDelta events of an event sequence, in
order. -/
def deltaTexts (events : List StreamEvent) : List String :=
  events.filterMap fun e =>
    match e with
    | StreamEvent.contentDelta t => some t
    | _ => none

/-- The non-empty textual fragments of the upstream chunk sequence, in
order. -/
def textFragments (chunks : List NativeChunk) : List String :=
  chunks.filterMap fun c =>
    match c with
    | NativeChunk.text t => if t = "" then none else some t
    | NativeChunk.usage _ => none

/-- Modelled from the spec: the usage record the relay builds when the
provider reports both the prompt and the completion token counts (spec
sections 3 and 8): totalTokens is their sum. -/
def mkStreamUsage (prompt completion : Nat) : StreamUsage :=
  { prompt_tokens := prompt, completion_tokens := completion,
    total_tokens := prompt + completion }

/-! ### ProviderRegistry — modelled from the spec (section 4.2) -/

/-- A (providerId, modelName, modelVersion) triple (spec section 4.2). -/
structure Triple where
  providerId : String
  modelName : String
  modelVersion : String
deriving DecidableEq, Repr

/-- A constructed ProviderClient instance; instanceId is the identity of
the construction, so two equal instanceIds mean the identical instance. -/
structure ClientInstance where
  instanceId : Nat
  triple : Triple
deriving DecidableEq, Repr

/-- Looks a triple up in the registry cache. -/
def cacheLookup (t : Triple) : List (Triple × ClientInstance) → Option ClientInstance
  | [] => none
  | (t', c) :: rest => if t = t' then some c else cacheLookup t rest

/-- Modelled from the spec: the ProviderRegistry cache state (spec
section 4.2; the registry module is not among the provided sources —
part_000 sketches only a single module-level VertexMistralClient).
Initialized empty at process start; nextId counts constructions. -/
structure Registry where
  cache : List (Triple × ClientInstance)
  nextId : Nat
deriving DecidableEq, Repr

/-- The registry state at process start: no instance constructed yet. -/
def Registry.emptyReg : Registry := { cache := [], nextId := 0 }

/-- Modelled from the spec: ProviderRegistry resolution for one triple
(spec section 4.2): a cache hit returns the cached instance unchanged;
otherwise the instance is lazily constructed, cached and returned. -/
def Registry.resolveTriple (r : Registry) (t : Triple) : ClientInstance × Registry :=
  match cacheLookup t r.cache with
  | some c => (c, r)
  | none =>
      let c : ClientInstance := { instanceId := r.nextId, triple := t }
      (c, { cache := (t, c) :: r.cache, nextId := r.nextId + 1 })

/-! ### RequestRouter — modelled from the spec (sections 4.3, 7, 8) -/

/-- An externally observable step of handling one chat request: either a
network call to an upstream provider or an error returned to the caller. -/
inductive RouterEvent where
  | networkCall (model : String)
  | errorReturn (e : ErrorKind)
deriving DecidableEq, Repr

/-- Modelled from the spec: provider resolution inside the RequestRouter
(spec sections 4.2/4.3 and the unknown-provider scenario of section 8; the
router module is not among the provided sources — part_000's /chat endpoint
sketch has no provider routing at all). An unregistered providerId fails
with UnknownProvider immediately; otherwise the resolved client's model is
called over the network. -/
def routeChatTrace (registered : List String) (r : Registry)
    (providerId modelName modelVersion : String) : List RouterEvent :=
  if providerId ∈ registered then
    let resolved := r.resolveTriple
      { providerId := providerId, modelName := modelName, modelVersion := modelVersion }
    [RouterEvent.networkCall
      (resolved.1.triple.modelName ++ "-" ++ resolved.1.triple.modelVersion)]
  else [RouterEvent.errorReturn ErrorKind.unknownProvider]

/-- The registered logical provider names (spec section 3,
ProviderDescriptor). -/
def registeredProviders : List String :=
  ["cerebras", "vertex-mistral", "openai", "anthropic", "gemini"]

/-! ### Session continuity — modelled from the spec (section 4.3) -/

/-- The SessionStore boundary: session id to ordered message history. -/
abbrev SessionStore := List (String × List ChatMessage)

/-- Loads the message history of a session; an unknown id has the empty
history. -/
def storeLoad : SessionStore → String → List ChatMessage
  | [], _ => []
  | (sid', msgs) :: rest, sid => if sid = sid' then msgs else storeLoad rest sid

/-- Writes the message history of a session (newest binding shadows). -/
def storeSet (store : SessionStore) (sid : String) (msgs : List ChatMessage) :
    SessionStore :=
  (sid, msgs) :: store

/-- Modelled from the spec: RequestRouter.handle for Chat with a sessionId
(spec section 4.3; the session-handling backend code is not among the
provided sources). Prior messages are loaded and prepended to the caller's
new user message to form the upstream dispatch, and after completion the
new user message and the assistant's reply are appended to the session.
Returns the upstream message list and the updated store. -/
def routeChatSession (store : SessionStore) (sid : String)
    (userContent reply : String) : List ChatMessage × SessionStore :=
  let prior := storeLoad store sid
  (prior ++ [{ role := "user", content := userContent }],
   storeSet store sid
     (prior ++ [{ role := "user", content := userContent },
                { role := "assistant", content := reply }]))

/-! ### fim validation — modelled from the spec (section 4.1) -/

/-- Modelled from the spec: the fim operation with its InvalidRequest
validation (spec section 4.1; the validation layer is not among the
provided sources — part_000's fim sketch forwards without checks). When
both prompt and suffix are empty the request fails with InvalidRequest;
otherwise the sketch's request construction is used. -/
def fimEndpoint (c : VertexMistralClient) (prompt suffix : String) :
    Except ErrorKind FimRequest :=
  if prompt = "" ∧ suffix = "" then Except.error ErrorKind.invalidRequest
  else Except.ok (c.fimRequest prompt suffix)

/-! ## Helper lemmas -/

theorem sendMessage_aborted_eq {s : DashState} (h1 : trimString s.input ≠ "")
    (h2 : s.selectedRepo ≠ none) (chunks : List String) :
    sendMessage s (StreamOutcome.aborted chunks) =
      { s with
          messages := s.messages ++ [{ role := "user", content := s.input }]
          streamingContent := ""
          input := ""
          loading := false } := by
  unfold sendMessage
  rw [if_neg (by simp [h1, h2])]

theorem sendMessage_failed_eq {s : DashState} (h1 : trimString s.input ≠ "")
    (h2 : s.selectedRepo ≠ none) (chunks : List String) (msg : String) :
    sendMessage s (StreamOutcome.failed chunks msg) =
      { s with
          messages := s.messages
          streamingContent := ""
          input := ""
          loading := false } := by
  unfold sendMessage
  rw [if_neg (by simp [h1, h2])]

theorem sendMessage_success_eq {s : DashState} (h1 : trimString s.input ≠ "")
    (h2 : s.selectedRepo ≠ none) (chunks : List String) (usage : Option StreamUsage)
    (sid : String) :
    sendMessage s (StreamOutcome.success chunks usage sid) =
      { s with
          messages := s.messages ++
            [{ role := "user", content := s.input },
             { role := "assistant", content := concatChunks chunks }]
          streamingContent := ""
          input := ""
          sessionId := some sid
          lastUsage := match usage with | some u => some u | none => s.lastUsage
          loading := false } := by
  unfold sendMessage
  rw [if_neg (by simp [h1, h2])]
  simp

theorem deltaTexts_append (a b : List StreamEvent) :
    deltaTexts (a ++ b) = deltaTexts a ++ deltaTexts b := by
  simp [deltaTexts]

theorem deltaTexts_nil : deltaTexts [] = [] := rfl

theorem deltaTexts_done : deltaTexts [StreamEvent.done] = [] := rfl

theorem deltaTexts_usageFinal (u : StreamUsage) :
    deltaTexts [StreamEvent.usageFinal u] = [] := rfl

theorem deltaTexts_error (k : ErrorKind) (m : String) :
    deltaTexts [StreamEvent.error k m] = [] := rfl

theorem textFragments_cons_text (t : String) (cs : List NativeChunk) :
    textFragments (NativeChunk.text t :: cs) =
      (if t = "" then [] else [t]) ++ textFragments cs := by
  by_cases h : t = "" <;> simp [textFragments, h]

theorem textFragments_cons_usage (u : StreamUsage) (cs : List NativeChunk) :
    textFragments (NativeChunk.usage u :: cs) = textFragments cs := by
  simp [textFragments]

theorem relayRun_deltas (chunks : List NativeChunk) (buf : Option StreamUsage) :
    deltaTexts (relayRun chunks buf).1 = textFragments chunks := by
  induction chunks generalizing buf with
  | nil => rfl
  | cons c cs ih =>
      cases c with
      | text t =>
          have hstep : (relayRun (NativeChunk.text t :: cs) buf).1
              = (if t = "" then [] else [StreamEvent.contentDelta t])
                  ++ (relayRun cs buf).1 := by
            simp [relayRun, relayStep]
          rw [hstep, deltaTexts_append, ih, textFragments_cons_text]
          by_cases h : t = "" <;> simp [deltaTexts, h]
      | usage u =>
          have hstep : (relayRun (NativeChunk.usage u :: cs) buf).1
              = (relayRun cs (some u)).1 := by
            simp [relayRun, relayStep]
          rw [hstep, ih, textFragments_cons_usage]

theorem relay_deltas (chunks : List NativeChunk) (ending : UpstreamEnd) :
    deltaTexts (relay chunks ending) = textFragments chunks := by
  cases ending with
  | ok =>
      simp only [relay]
      cases h : (relayRun chunks none).2 with
      | none =>
          simp only [deltaTexts_append, deltaTexts_done, deltaTexts_nil,
            List.append_nil, relayRun_deltas]
      | some u =>
          simp only [deltaTexts_append, deltaTexts_done, deltaTexts_usageFinal,
            List.append_nil, relayRun_deltas]
  | failed msg =>
      simp only [relay, deltaTexts_append, deltaTexts_error, List.append_nil,
        relayRun_deltas]
  | cancelled => simp only [relay, relayRun_deltas]

theorem relayRun_events_delta (chunks : List NativeChunk) (buf : Option StreamUsage) :
    ∀ e ∈ (relayRun chunks buf).1, ∃ t, e = StreamEvent.contentDelta t := by
  induction chunks generalizing buf with
  | nil => simp [relayRun]
  | cons c cs ih =>
      intro e he
      cases c with
      | text t =>
          by_cases h : t = ""
          · simp [relayRun, relayStep, h] at he
            exact ih _ e he
          · simp [relayRun, relayStep, h] at he
            rcases he with he | he
            · exact ⟨t, he⟩
            · exact ih _ e he
      | usage u =>
          simp [relayRun, relayStep] at he
          exact ih _ e he

theorem relayRun_buf_src (chunks : List NativeChunk) (buf : Option StreamUsage)
    (u : StreamUsage) (h : (relayRun chunks buf).2 = some u) :
    NativeChunk.usage u ∈ chunks ∨ buf = some u := by
  induction chunks generalizing buf with
  | nil =>
      simp [relayRun] at h
      simp [h]
  | cons c cs ih =>
      cases c with
      | text t =>
          simp [relayRun, relayStep] at h
          rcases ih _ h with h' | h'
          · exact Or.inl (List.mem_cons_of_mem _ h')
          · exact Or.inr h'
      | usage v =>
          simp [relayRun, relayStep] at h
          rcases ih _ h with h' | h'
          · exact Or.inl (List.mem_cons_of_mem _ h')
          · rw [Option.some_inj] at h'
            subst h'
            exact Or.inl (List.mem_cons_self _ _)

theorem cacheLookup_resolveTriple (r : Registry) (t : Triple) :
    cacheLookup t ((r.resolveTriple t).2).cache = some (r.resolveTriple t).1 := by
  unfold Registry.resolveTriple
  cases h : cacheLookup t r.cache with
  | some c => simpa using h
  | none => simp [cacheLookup]

theorem cacheLookup_preserved (r : Registry) (t t' : Triple) (c : ClientInstance)
    (h : cacheLookup t r.cache = some c) :
    cacheLookup t ((r.resolveTriple t').2).cache = some c := by
  unfold Registry.resolveTriple
  cases h' : cacheLookup t' r.cache with
  | some c' => simpa using h
  | none =>
      by_cases ht : t = t'
      · subst ht
        rw [h] at h'
        exact absurd h' (by simp)
      · simpa [cacheLookup, ht] using h

theorem resolveTriple_hit (r : Registry) (t : Triple) (c : ClientInstance)
    (h : cacheLookup t r.cache = some c) : r.resolveTriple t = (c, r) := by
  unfold Registry.resolveTriple
  rw [h]

theorem runOps_general (c : VertexMistralClient) (ops : List ClientOp) :
    (c.runOps ops).2 = c ∧
    (c.runOps ops).1.map IssuedRequest.model = List.replicate ops.length c.model := by
  induction ops with
  | nil => simp [VertexMistralClient.runOps]
  | cons op ops ih =>
      cases op <;>
        simp [VertexMistralClient.runOps, VertexMistralClient.runOp,
          VertexMistralClient.chatRequest, VertexMistralClient.fimRequest,
          IssuedRequest.model, ih.1, ih.2, List.replicate_succ]

theorem lookup_mem_values (k v : String) :
    ∀ l : List (String × String), l.lookup k = some v → v ∈ l.map Prod.snd
  | [], h => by simp [List.lookup] at h
  | (k', v') :: l, h => by
      cases hk : k == k' with
      | true =>
          simp [List.lookup, hk] at h
          simp [h]
      | false =>
          simp [List.lookup, hk] at h
          simp [lookup_mem_values k v l h]

/-! ## Claim theorems -/

/-- Claim C1, counterexample to the claim as stated: cancelling the stream
after 1 of 2 chunks does NOT leave the message history unchanged — the
optimistically appended user message of the cancelled attempt remains
(page.tsx keeps `history` on an AbortError; only the non-abort error branch
restores the pre-send list). -/
theorem sendMessage_cancel_history_changed :
    (sendMessage dashInit (StreamOutcome.aborted ["He"])).messages ≠ dashInit.messages ∧
    (sendMessage dashInit (StreamOutcome.aborted ["He"])).messages
      = [{ role := "user", content := "hi" }] := by
  constructor
  · decide
  · decide

/-- Claim C1, amended: cancelling a stream after N of M chunks appends no
assistant turn — every assistant message present afterwards was already
there, the streamed fragments are discarded (the streaming buffer is
cleared), and the session id is untouched; the assistant message is
appended only on the terminal event, as the concatenation of all received
fragments. The optimistically appended user message of the cancelled
attempt, however, remains in the history. -/
theorem sendMessage_cancel_no_assistant_turn (s : DashState) (chunks : List String)
    (h1 : trimString s.input ≠ "") (h2 : s.selectedRepo ≠ none) :
    (sendMessage s (StreamOutcome.aborted chunks)).messages
        = s.messages ++ [{ role := "user", content := s.input }] ∧
    (∀ m ∈ (sendMessage s (StreamOutcome.aborted chunks)).messages,
        m.role = "assistant" → m ∈ s.messages) ∧
    (sendMessage s (StreamOutcome.aborted chunks)).streamingContent = "" ∧
    (sendMessage s (StreamOutcome.aborted chunks)).sessionId = s.sessionId ∧
    ∀ usage sid,
      (sendMessage s (StreamOutcome.success chunks usage sid)).messages
        = s.messages ++ [{ role := "user", content := s.input },
                         { role := "assistant", content := concatChunks chunks }] := by
  rw [sendMessage_aborted_eq h1 h2]
  refine ⟨rfl, ?_, rfl, rfl, ?_⟩
  · intro m hm hrole
    rcases List.mem_append.mp hm with h | h
    · exact h
    · simp at h
      rw [h] at hrole
      have hr : ({ role := "user", content := s.input } : ChatMessage).role = "user" := rfl
      rw [hr] at hrole
      exact absurd hrole (by decide)
  · intro usage sid
    rw [sendMessage_success_eq h1 h2]

/-- Witness for C1's amended theorem at a concrete state: cancelling after
one chunk keeps exactly the user message and clears the streaming buffer. -/
theorem sendMessage_cancel_no_assistant_turn_witness :
    (sendMessage dashInit (StreamOutcome.aborted ["He"])).messages
      = dashInit.messages ++ [{ role := "user", content := "hi" }] ∧
    (sendMessage dashInit (StreamOutcome.aborted ["He"])).streamingContent = "" := by
  have h := sendMessage_cancel_no_assistant_turn dashInit ["He"]
    (by decide) (by decide)
  exact ⟨h.1, h.2.2.1⟩

/-- Claim C2: the relay emits ContentDelta events in the exact order the
upstream produced its chunks, one delta carrying exactly the text of one
textual chunk (no re-chunking, reordering or batching), and the dashboard's
final assistant message is the in-order concatenation of the received
fragments (sendMessage accumulates `accumulated += chunk`). -/
theorem relay_order_concat (chunks : List NativeChunk) (ending : UpstreamEnd)
    (s : DashState) (usage : Option StreamUsage) (sid : String)
    (h1 : trimString s.input ≠ "") (h2 : s.selectedRepo ≠ none) :
    deltaTexts (relay chunks ending) = textFragments chunks ∧
    (sendMessage s
        (StreamOutcome.success (deltaTexts (relay chunks UpstreamEnd.ok)) usage sid)).messages
      = s.messages ++ [{ role := "user", content := s.input },
                       { role := "assistant",
                         content := concatChunks (textFragments chunks) }] := by
  refine ⟨relay_deltas chunks ending, ?_⟩
  rw [sendMessage_success_eq h1 h2, relay_deltas]

/-- Witness for C2 at a concrete stream: two non-empty chunks relay to two
deltas in order and the assistant message is their concatenation. -/
theorem relay_order_concat_witness :
    deltaTexts (relay [NativeChunk.text "He", NativeChunk.text "llo"] UpstreamEnd.ok)
      = ["He", "llo"] ∧
    (sendMessage dashInit
        (StreamOutcome.success
          (deltaTexts (relay [NativeChunk.text "He", NativeChunk.text "llo"] UpstreamEnd.ok))
          none "S1")).messages
      = [{ role := "user", content := "hi" }, { role := "assistant", content := "Hello" }] := by
  have h := relay_order_concat [NativeChunk.text "He", NativeChunk.text "llo"]
    UpstreamEnd.ok dashInit none "S1" (by decide) (by decide)
  exact ⟨h.1, by rw [h.2]; decide⟩

/-- Claim C3: every usage record a completed stream reports, when the
provider supplied both components, satisfies
totalTokens = promptTokens + completionTokens, with all three fields
non-negative (the fields are naturals). -/
theorem stream_usage_invariant (chunks : List NativeChunk) (ending : UpstreamEnd)
    (h : ∀ u, NativeChunk.usage u ∈ chunks → ∃ p c, u = mkStreamUsage p c) :
    ∀ u, StreamEvent.usageFinal u ∈ relay chunks ending →
      u.total_tokens = u.prompt_tokens + u.completion_tokens ∧
      0 ≤ u.prompt_tokens ∧ 0 ≤ u.completion_tokens ∧ 0 ≤ u.total_tokens := by
  intro u hu
  have hmem : NativeChunk.usage u ∈ chunks := by
    have hrun : ∀ e ∈ (relayRun chunks none).1, ∃ t, e = StreamEvent.contentDelta t :=
      relayRun_events_delta chunks none
    cases ending with
    | ok =>
        simp only [relay] at hu
        cases hb : (relayRun chunks none).2 with
        | none =>
            rw [hb] at hu
            rcases List.mem_append.mp hu with h' | h'
            · rcases List.mem_append.mp h' with h'' | h''
              · rcases hrun _ h'' with ⟨t, ht⟩
                exact absurd ht (by simp)
              · simp at h''
            · simp at h'
        | some v =>
            rw [hb] at hu
            rcases List.mem_append.mp hu with h' | h'
            · rcases List.mem_append.mp h' with h'' | h''
              · rcases hrun _ h'' with ⟨t, ht⟩
                exact absurd ht (by simp)
              · simp at h''
                subst h''
                rcases relayRun_buf_src chunks none _ hb with hm | hm
                · exact hm
                · exact absurd hm (by simp)
            · simp at h'
    | failed msg =>
        simp only [relay] at hu
        rcases List.mem_append.mp hu with h' | h'
        · rcases hrun _ h' with ⟨t, ht⟩
          exact absurd ht (by simp)
        · simp at h'
    | cancelled =>
        simp only [relay] at hu
        rcases hrun _ hu with ⟨t, ht⟩
        exact absurd ht (by simp)
  rcases h u hmem with ⟨p, c, rfl⟩
  exact ⟨rfl, Nat.zero_le _, Nat.zero_le _, Nat.zero_le _⟩

/-- Witness for C3 at a concrete stream whose provider reported both
components (3 prompt, 5 completion). -/
theorem stream_usage_invariant_witness :
    (mkStreamUsage 3 5).total_tokens
      = (mkStreamUsage 3 5).prompt_tokens + (mkStreamUsage 3 5).completion_tokens := by
  have h := stream_usage_invariant
    [NativeChunk.text "He", NativeChunk.usage (mkStreamUsage 3 5)] UpstreamEnd.ok
    (by intro u hu; simp at hu; exact ⟨3, 5, hu⟩)
    (mkStreamUsage 3 5) (by decide)
  exact h.1

/-- Claim C4: resolving the same (providerId, modelName, modelVersion)
triple twice returns the identical cached instance and constructs nothing
new (the registry state is unchanged), and the instance survives an
interleaved resolution of any other triple. -/
theorem registry_resolve_idempotent (r : Registry) (t : Triple) :
    ((r.resolveTriple t).2.resolveTriple t).1 = (r.resolveTriple t).1 ∧
    ((r.resolveTriple t).2.resolveTriple t).2 = (r.resolveTriple t).2 ∧
    ∀ t', (((r.resolveTriple t).2.resolveTriple t').2.resolveTriple t).1
      = (r.resolveTriple t).1 := by
  have h1 := cacheLookup_resolveTriple r t
  have h2 := resolveTriple_hit _ _ _ h1
  refine ⟨by rw [h2], by rw [h2], ?_⟩
  intro t'
  have h3 := cacheLookup_preserved _ t t' _ h1
  have h4 := resolveTriple_hit _ _ _ h3
  rw [h4]

/-- Claim C5: a request naming an unregistered provider fails with
UnknownProvider and its handling trace holds no network call at all. -/
theorem unknown_provider_no_network (registered : List String) (r : Registry)
    (providerId modelName modelVersion : String)
    (h : providerId ∉ registered) :
    routeChatTrace registered r providerId modelName modelVersion
      = [RouterEvent.errorReturn ErrorKind.unknownProvider] ∧
    ∀ m, RouterEvent.networkCall m
      ∉ routeChatTrace registered r providerId modelName modelVersion := by
  unfold routeChatTrace
  rw [if_neg h]
  refine ⟨rfl, ?_⟩
  intro m hm
  simp at hm

/-- Witness for C5 at the registered provider list of the spec and the
provider "not-a-real-provider". -/
theorem unknown_provider_no_network_witness :
    routeChatTrace registeredProviders Registry.emptyReg "not-a-real-provider" "m" "v"
      = [RouterEvent.errorReturn ErrorKind.unknownProvider] := by
  exact (unknown_provider_no_network registeredProviders Registry.emptyReg
    "not-a-real-provider" "m" "v" (by decide)).1

/-- Claim C6: for a Chat request carrying a sessionId, the prior messages
of the session are prepended to the new user message for the upstream
dispatch, and after completion the new user message and the assistant's
reply are appended; on turn 2 the upstream thus receives turn 1's user and
assistant messages in front of the new message. -/
theorem session_prepend_append (store : SessionStore) (sid u1 r1 u2 r2 : String) :
    (routeChatSession store sid u1 r1).1
      = storeLoad store sid ++ [{ role := "user", content := u1 }] ∧
    storeLoad (routeChatSession store sid u1 r1).2 sid
      = storeLoad store sid ++ [{ role := "user", content := u1 },
                                { role := "assistant", content := r1 }] ∧
    (routeChatSession (routeChatSession store sid u1 r1).2 sid u2 r2).1
      = storeLoad store sid ++ [{ role := "user", content := u1 },
                                { role := "assistant", content := r1 },
                                { role := "user", content := u2 }] ∧
    storeLoad (routeChatSession (routeChatSession store sid u1 r1).2 sid u2 r2).2 sid
      = storeLoad store sid ++ [{ role := "user", content := u1 },
                                { role := "assistant", content := r1 },
                                { role := "user", content := u2 },
                                { role := "assistant", content := r2 }] := by
  simp [routeChatSession, storeSet, storeLoad]

/-- Claim C7: a fim call with both prompt and suffix empty fails with
InvalidRequest, and with at least one of them non-empty it does not — it
yields the upstream request instead. -/
theorem fim_empty_invalid_request (c : VertexMistralClient) (prompt sfx : String) :
    (prompt = "" ∧ sfx = "" →
        fimEndpoint c prompt sfx = Except.error ErrorKind.invalidRequest) ∧
    (¬(prompt = "" ∧ sfx = "") →
        fimEndpoint c prompt sfx = Except.ok (c.fimRequest prompt sfx)) := by
  constructor
  · intro h
    unfold fimEndpoint
    rw [if_pos h]
  · intro h
    unfold fimEndpoint
    rw [if_neg h]

/-- Witness for C7: the empty-empty call fails with InvalidRequest and the
call with a non-empty prompt succeeds. -/
theorem fim_empty_invalid_request_witness :
    fimEndpoint (VertexMistralClient.construct "r" "p" "codestral" "2405") "" ""
      = Except.error ErrorKind.invalidRequest ∧
    fimEndpoint (VertexMistralClient.construct "r" "p" "codestral" "2405")
        "def add(a, b):" ""
      = Except.ok ((VertexMistralClient.construct "r" "p" "codestral" "2405").fimRequest
          "def add(a, b):" "") := by
  constructor
  · exact (fim_empty_invalid_request _ "" "").1 ⟨rfl, rfl⟩
  · exact (fim_empty_invalid_request _ "def add(a, b):" "").2 (by decide)

/-- Claim C8: a VertexMistralClient constructed for (model_name,
model_version) is bound to the model "model_name-model_version" for its
whole lifetime: any sequence of chat and fim operations leaves the client
state unchanged and every issued request targets exactly that model. -/
theorem client_model_binding (region project_id model_name model_version : String)
    (ops : List ClientOp) :
    ((VertexMistralClient.construct region project_id model_name model_version).runOps
        ops).2
      = VertexMistralClient.construct region project_id model_name model_version ∧
    ((VertexMistralClient.construct region project_id model_name model_version).runOps
        ops).1.map IssuedRequest.model
      = List.replicate ops.length (model_name ++ "-" ++ model_version) := by
  have h := runOps_general
    (VertexMistralClient.construct region project_id model_name model_version) ops
  exact ⟨h.1, h.2⟩

/-- Claim C9: when the stream fails with a non-cancellation error, the
dashboard restores the message list to its exact pre-send state (the
stale-closure `setMessages(messages)`), clears the streaming buffer and
touches neither the session id nor the usage record. -/
theorem sendMessage_error_restores (s : DashState) (chunks : List String)
    (msg : String) (h1 : trimString s.input ≠ "") (h2 : s.selectedRepo ≠ none) :
    (sendMessage s (StreamOutcome.failed chunks msg)).messages = s.messages ∧
    (sendMessage s (StreamOutcome.failed chunks msg)).streamingContent = "" ∧
    (sendMessage s (StreamOutcome.failed chunks msg)).sessionId = s.sessionId ∧
    (sendMessage s (StreamOutcome.failed chunks msg)).lastUsage = s.lastUsage := by
  rw [sendMessage_failed_eq h1 h2]
  exact ⟨rfl, rfl, rfl, rfl⟩

/-- Witness for C9 at a concrete state: after an error the message list is
exactly the pre-send (empty) list. -/
theorem sendMessage_error_restores_witness :
    (sendMessage dashInit (StreamOutcome.failed ["He"] "boom")).messages
      = dashInit.messages := by
  exact (sendMessage_error_restores dashInit ["He"] "boom" (by decide) (by decide)).1

/-- Claim C10, counterexample to the claim as stated: the path "ts"
contains no "." — so it has no extension and the claim demands
"plaintext" — yet getLanguage returns "typescript", because
`split(".").pop()` on a dotless path yields the whole path. -/
theorem getLanguage_dotless_counterexample :
    Char.ofNat 46 ∉ "ts".data ∧
    getLanguage "ts" = "typescript" ∧
    getLanguage "ts" ≠ "plaintext" := by
  refine ⟨by decide, by decide, by decide⟩

/-- Claim C10, amended: getLanguage is total; it lowercases the final
"."-separated segment of the path — the whole path when no "." occurs —
and returns the mapped editor language when that segment is a known
extension and "plaintext" otherwise, so its result is always either
"plaintext" or one of the table's languages; a dotless path equal to a
known extension therefore maps to that language, not to "plaintext". -/
theorem getLanguage_total_lookup (path : String) :
    (∀ lang, languageMap.lookup (lastSegmentLower path) = some lang →
        getLanguage path = lang) ∧
    (languageMap.lookup (lastSegmentLower path) = none →
        getLanguage path = "plaintext") ∧
    (getLanguage path = "plaintext" ∨ getLanguage path ∈ languageMap.map Prod.snd) := by
  refine ⟨?_, ?_, ?_⟩
  · intro lang h
    simp only [getLanguage]
    rw [h]
    rfl
  · intro h
    simp only [getLanguage]
    rw [h]
    rfl
  · cases h : languageMap.lookup (lastSegmentLower path) with
    | none =>
        left
        simp only [getLanguage]
        rw [h]
        rfl
    | some lang =>
        right
        have hl : getLanguage path = lang := by
          simp only [getLanguage]
          rw [h]
          rfl
        rw [hl]
        exact lookup_mem_values _ _ _ h

/-- Witness for C10's amended theorem: "A.TS" maps through the lowercased
extension to "typescript" and "Makefile" falls back to "plaintext". -/
theorem getLanguage_total_lookup_witness :
    getLanguage "A.TS" = "typescript" ∧ getLanguage "Makefile" = "plaintext" := by
  exact ⟨(getLanguage_total_lookup "A.TS").1 "typescript" (by decide),
         (getLanguage_total_lookup "Makefile").2.1 (by decide)⟩

end Axel
